import Mathlib

/-!
Verification development for the HannaIRC scraper utilities
(`anime_lookup.py`, `scrape_to_n8n.py`, `manual_fact_to_n8n.py`).

Strings are modelled as lists of characters (`PyStr`); Python dictionaries
are modelled as association lists whose insertion operation updates the
value in place when the key is already present and appends a fresh pair
otherwise, which reproduces Python's insertion-ordered dictionary
iteration exactly.
-/

namespace HannaIRC

/-- Python strings, modelled as lists of characters. -/
abbrev PyStr := List Char

/-- Python's `str.lower()` on the characters of a string. -/
def pyLower (s : PyStr) : PyStr := s.map Char.toLower

/-- Python's substring test `sub in s`. -/
def pyIn (sub s : PyStr) : Bool :=
  (List.range (s.length + 1)).any fun i => List.isPrefixOf sub (s.drop i)

/-- Python dictionary assignment `d[k] = v` on an insertion-ordered
association list: an existing key keeps its position and gets the new
value, a fresh key is appended at the end. -/
def dinsert {α β : Type} [DecidableEq α] (k : α) (v : β) :
    List (α × β) → List (α × β)
  | [] => [(k, v)]
  | (k', v') :: rest => if k' = k then (k, v) :: rest else (k', v') :: dinsert k v rest

/-- Python dictionary access `d[k]`, `none` standing for a `KeyError`. -/
def dlookup {α β : Type} [DecidableEq α] (k : α) : List (α × β) → Option β
  | [] => none
  | (k', v) :: rest => if k' = k then some v else dlookup k rest

/-- One `<title>` element of a catalog entry: its text, its `type`
attribute and its `xml:lang` attribute (the parser defaults both
attributes, so they are always present here). -/
structure Title where
  text : PyStr
  type : PyStr
  lang : PyStr
  deriving DecidableEq, Repr

/-- One `<anime>` element of the catalog: its `aid` attribute when present
and convertible, and its ordered list of titles. -/
structure Entry where
  aid : Option Nat
  titles : List Title
  deriving DecidableEq, Repr

/-- The per-anime record stored in `lookup['anime_data']` by
`parse_anime_titles`. -/
structure AnimeData where
  aid : Nat
  main_title : Option PyStr
  titles : List Title
  anidb_url : PyStr
  deriving DecidableEq, Repr

/-- The three lookup tables built by `parse_anime_titles`. -/
structure Lookup where
  abbreviations : List (PyStr × Nat)
  titles : List (PyStr × Nat)
  anime_data : List (Nat × AnimeData)
  deriving DecidableEq, Repr

/-- The URL string built as `https://anidb.net/?aid=` followed by the
decimal id. -/
def animeUrl (aid : Nat) : PyStr :=
  "https://anidb.net/?aid=".toList ++ (Nat.repr aid).toList

/-- State of the inner title loop of `parse_anime_titles`: the
`titles_list` accumulator, the `main_title` variable and the lookup
tables under construction. -/
structure TState where
  titles_list : List Title
  main_title : Option PyStr
  lk : Lookup
  deriving Repr

/-- One iteration of the title loop of `parse_anime_titles` (lines
109-132): empty title text is skipped; otherwise the title is appended to
`titles_list`, `main_title` is set when the type is `main` or when it is
still unset, the lowercased text is registered in the title table, and
additionally in the abbreviation table when the type is `short`. -/
def processTitle (aid : Nat) (st : TState) (t : Title) : TState :=
  if t.text = [] then st
  else
    { titles_list := st.titles_list ++ [t]
      main_title :=
        if t.type = "main".toList ∨ st.main_title = none then some t.text
        else st.main_title
      lk :=
        { st.lk with
            titles := dinsert (pyLower t.text) aid st.lk.titles
            abbreviations :=
              if t.type = "short".toList then
                dinsert (pyLower t.text) aid st.lk.abbreviations
              else st.lk.abbreviations } }

/-- One iteration of the entry loop of `parse_anime_titles` (lines
100-140): entries without an `aid` are skipped; otherwise the titles are
folded and the per-anime record is stored under its id. -/
def processEntry (lk : Lookup) (e : Entry) : Lookup :=
  match e.aid with
  | none => lk
  | some aid =>
    let st := e.titles.foldl (processTitle aid) ⟨[], none, lk⟩
    { st.lk with
        anime_data :=
          dinsert aid ⟨aid, st.main_title, st.titles_list, animeUrl aid⟩
            st.lk.anime_data }

/-- `parse_anime_titles` on an already-read catalog: fold the entry loop
over the catalog starting from three empty tables. -/
def parse_anime_titles (catalog : List Entry) : Lookup :=
  catalog.foldl processEntry ⟨[], [], []⟩

/-- A search result tuple `(aid, main_title, anidb_url)`; the middle
component is optional because `main_title` can be Python `None` for an
entry all of whose titles were empty. -/
abbrev Result := Nat × Option PyStr × PyStr

/-- The tier-3 loop of `search_anime` (lines 169-172): every abbreviation
key that contains the query or is contained in it contributes the record
tuple, in abbreviation-table order. `none` models the `KeyError` raised
when a matched id is missing from `anime_data`. -/
def substr_abbrev_matches (data : List (Nat × AnimeData)) (ql : PyStr) :
    List (PyStr × Nat) → List Result → Option (List Result)
  | [], acc => some acc
  | (abbr, aid) :: rest, acc =>
    if pyIn ql abbr || pyIn abbr ql then
      match dlookup aid data with
      | none => none
      | some a => substr_abbrev_matches data ql rest (acc ++ [(aid, a.main_title, a.anidb_url)])
    else substr_abbrev_matches data ql rest acc

/-- The tier-4 loop of `search_anime` (lines 175-178): every title key
containing the query contributes the record tuple unless the tuple
`(aid, title_key, anidb_url)` — built from the matched key, not from the
main title — is already among the results collected so far. -/
def substr_title_matches (data : List (Nat × AnimeData)) (ql : PyStr) :
    List (PyStr × Nat) → List Result → Option (List Result)
  | [], acc => some acc
  | (title, aid) :: rest, acc =>
    if pyIn ql title then
      match dlookup aid data with
      | none => none
      | some a =>
        if (aid, some title, a.anidb_url) ∈ acc then
          substr_title_matches data ql rest acc
        else substr_title_matches data ql rest (acc ++ [(aid, a.main_title, a.anidb_url)])
    else substr_title_matches data ql rest acc

/-- `search_anime` (lines 148-180): lowercase the query; return the
single record of an exact abbreviation match, else of an exact title
match; else run the two substring loops over one shared accumulator and
keep the first ten results. `none` models an uncaught `KeyError`. -/
def search_anime (lookup : Lookup) (query : PyStr) : Option (List Result) :=
  let ql := pyLower query
  match dlookup ql lookup.abbreviations with
  | some aid => (dlookup aid lookup.anime_data).map fun a => [(aid, a.main_title, a.anidb_url)]
  | none =>
    match dlookup ql lookup.titles with
    | some aid => (dlookup aid lookup.anime_data).map fun a => [(aid, a.main_title, a.anidb_url)]
    | none =>
      match substr_abbrev_matches lookup.anime_data ql lookup.abbreviations [] with
      | none => none
      | some r3 =>
        match substr_title_matches lookup.anime_data ql lookup.titles r3 with
        | none => none
        | some r => some (r.take 10)

/-- The update applied to the `main_title` variable by one pass of the
title loop: empty text is skipped, otherwise a `main`-tagged title or a
still-unset variable takes the title text. -/
def mainStep (m : Option PyStr) (t : Title) : Option PyStr :=
  if t.text = [] then m
  else if t.type = "main".toList ∨ m = none then some t.text else m

/-- The text of the last non-empty title tagged `main`, if any. -/
def lastMainText : List Title → Option PyStr
  | [] => none
  | t :: ts =>
    match lastMainText ts with
    | some x => some x
    | none => if t.text ≠ [] ∧ t.type = "main".toList then some t.text else none

/-- The text of the first non-empty title, if any. -/
def firstNonEmptyText : List Title → Option PyStr
  | [] => none
  | t :: ts => if t.text ≠ [] then some t.text else firstNonEmptyText ts

/-- The main-title policy the title loop actually implements: the last
non-empty `main`-tagged title wins; with no `main` tag anywhere, the
first non-empty title stands. -/
def lastMainElseFirst (ts : List Title) : Option PyStr :=
  match lastMainText ts with
  | some x => some x
  | none => firstNonEmptyText ts

/-- The text of the first non-empty title tagged `main`, if any. -/
def firstMainText : List Title → Option PyStr
  | [] => none
  | t :: ts =>
    if t.text ≠ [] ∧ t.type = "main".toList then some t.text else firstMainText ts

/-- The main-title policy as the specification words it: the first title
tagged `main` wins; otherwise the first non-empty title. -/
def firstMainElseFirst (ts : List Title) : Option PyStr :=
  match firstMainText ts with
  | some x => some x
  | none => firstNonEmptyText ts

/-- A result tuple that carries its record's main title and AniDB URL. -/
def UsesMainTitle (data : List (Nat × AnimeData)) (x : Result) : Prop :=
  ∃ a, (x.1, a) ∈ data ∧ x.2.1 = a.main_title ∧ x.2.2 = a.anidb_url

/-- Referential integrity of a set of lookup tables: every id stored in
the abbreviation or title map is a key of `anime_data`. -/
def Integrity (lk : Lookup) : Prop :=
  ∀ p : PyStr × Nat, p ∈ lk.abbreviations ∨ p ∈ lk.titles →
    p.2 ∈ lk.anime_data.map Prod.fst

/-! ### Domain exclusion filter -/

/-- The membership test applied to an already-lowercased domain:
`any(domain == ex or domain.endswith('.' + ex) for ex in excluded_domains)`. -/
def domainBlocked (excluded : List PyStr) (domain : PyStr) : Bool :=
  excluded.any fun ex => domain == ex || List.isSuffixOf ('.' :: ex) domain

/-- The exclusion check applied to an extracted host: the host is
lowercased and then matched against the exclusion entries. -/
def hostExcluded (excluded : List PyStr) (host : PyStr) : Bool :=
  domainBlocked excluded (pyLower host)

/-- Python's `str.split(sep)` for a one-character separator. -/
def pySplit (sep : Char) : PyStr → List PyStr
  | [] => [[]]
  | c :: rest =>
    let r := pySplit sep rest
    if c = sep then [] :: r
    else
      match r with
      | [] => [[c]]
      | h :: t => (c :: h) :: t

/-- The host extraction of `manual_fact_entry_and_send` (line 66):
`url.split('/')[2].lower() if '://' in url else url.lower()`. -/
def manualDomainOf (url : PyStr) : PyStr :=
  if pyIn "://".toList url then pyLower ((pySplit '/' url).getD 2 [])
  else pyLower url

/-- The manual-entry exclusion check (lines 66-67). -/
def manualUrlExcluded (excluded : List PyStr) (url : PyStr) : Bool :=
  domainBlocked excluded (manualDomainOf url)

/-! ### Ingestion payloads and batch submission -/

/-- The deterministic fields of the JSON payload built by
`manual_fact_entry_and_send` (lines 86-97); the `id` (a fresh UUID), the
`timestamp` (current time) and the constant `sourceUser: None` come from
the environment and carry no logic. -/
structure FactPayload where
  text : PyStr
  url : Option PyStr
  title : Option PyStr
  source_type : PyStr
  confidence : Rat
  tags : List PyStr
  related_entities : List PyStr
  deriving DecidableEq, Repr

/-- The confidence computation of `manual_fact_entry_and_send`
(lines 78-82): the user's input is modelled by the outcome of `float()`,
`some x` when the stripped input parses to the value `x` and `none` when
the input is blank or `float()` raises; both fallbacks yield `1.0`, and
no branch clamps or validates the parsed value. -/
def manual_confidence (floatResult : Option Rat) : Rat :=
  floatResult.getD 1

/-- The payload record assembled by `manual_fact_entry_and_send`. -/
def manualFactPayload (text : PyStr) (url title : Option PyStr)
    (source_type : PyStr) (floatResult : Option Rat)
    (tags related : List PyStr) : FactPayload :=
  ⟨text, url, title, source_type, manual_confidence floatResult, tags, related⟩

/-- Outcome of one `requests.post` call: an HTTP status code, or a raised
exception. -/
inductive PostOutcome
  | status (code : Nat)
  | exc
  deriving DecidableEq, Repr

/-- The submission loop of `inject_to_knowledge_base` (lines 192-219):
one post per record, enumerated from 1; a 200/201 status increments the
success count, any other status or a raised exception increments the
error count, and every branch continues with the next record. -/
def injectLoop (net : Nat → PostOutcome) :
    List (Nat × AnimeData) → Nat → Nat → Nat → Nat × Nat
  | [], _, s, e => (s, e)
  | _ :: rest, i, s, e =>
    match net i with
    | .exc => injectLoop net rest (i + 1) s (e + 1)
    | .status c =>
      if c = 200 ∨ c = 201 then injectLoop net rest (i + 1) (s + 1) e
      else injectLoop net rest (i + 1) s (e + 1)

/-- `inject_to_knowledge_base`: iterate the submission loop over
`anime_data` and return the final `(success_count, error_count)` tally;
the network behaviour of the i-th post is supplied by `net`. -/
def inject_to_knowledge_base (lookup : Lookup) (net : Nat → PostOutcome) :
    Nat × Nat :=
  injectLoop net lookup.anime_data 1 0 0

/-! ### The web-scrape batch -/

/-- A fetched page as the scraper sees it: extracted text and an optional
title string. -/
structure Page where
  text : PyStr
  title : Option PyStr

/-- The classes of uncaught exception the scrape path can raise. -/
inductive PyError
  | nameError
  | other
  deriving DecidableEq, Repr

/-- The per-URL loop of `scrape_and_send_to_n8n` (lines 67-83). The
`facts` binding state is `none` while the name is unbound. An excluded
domain skips the URL. Otherwise the `try` body runs: a raised fetch is
caught; on a successful fetch the body reaches `facts.append(payload)`,
whose evaluation of the (never assigned) names `facts` and `payload`
raises `NameError`, also caught by the per-URL handler. No branch ever
binds `facts`. -/
def scrapeLoop (excluded : List PyStr) (netloc : PyStr → PyStr)
    (fetch : PyStr → Except Unit Page) (facts : Option (List FactPayload)) :
    List PyStr → Option (List FactPayload)
  | [] => facts
  | url :: rest =>
    if domainBlocked excluded (pyLower (netloc url)) then
      scrapeLoop excluded netloc fetch facts rest
    else
      match fetch url with
      | .error _ => scrapeLoop excluded netloc fetch facts rest
      | .ok _ =>
        match facts with
        | none => scrapeLoop excluded netloc fetch none rest
        | some _ => scrapeLoop excluded netloc fetch facts rest

/-- The webhook submission loop of `scrape_and_send_to_n8n`
(lines 87-95): a single `try` wraps the whole `for` loop, so a raising
post ends the loop and the remaining facts are never sent; a non-raising
post of any status code is recorded and the loop continues. -/
def sendLoop (post : FactPayload → Except Unit Nat) :
    List FactPayload → List (FactPayload × Nat)
  | [] => []
  | f :: rest =>
    match post f with
    | .error _ => []
    | .ok code => (f, code) :: sendLoop post rest

/-- The observable outcome of one `scrape_and_send_to_n8n` call: the
facts actually posted (with their status codes) and the uncaught
exception that ended the call, if any. -/
structure ScrapeRun where
  posted : List (FactPayload × Nat)
  failure : Option PyError
  deriving Repr

/-- `scrape_and_send_to_n8n` (lines 49-95): run the per-URL loop, then
evaluate `if not facts:`, which reads the still-unbound `facts` name —
modelled by the `none` state — and raises `NameError` outside any
handler; only a bound non-empty `facts` would reach the send loop. -/
def scrape_and_send_to_n8n (urls excluded : List PyStr)
    (netloc : PyStr → PyStr) (fetch : PyStr → Except Unit Page)
    (post : FactPayload → Except Unit Nat) : ScrapeRun :=
  match scrapeLoop excluded netloc fetch none urls with
  | none => ⟨[], some PyError.nameError⟩
  | some facts =>
    if facts.isEmpty then ⟨[], none⟩
    else ⟨sendLoop post facts, none⟩

/-! ### Concrete fixtures used as test vectors -/

/-- A two-entry catalog: entry 1 has abbreviation `JJK` and main title
`Jujutsu Kaisen`, entry 2 has only the main title `JJK Stuff`. -/
def egCatalog : List Entry :=
  [ ⟨some 1, [⟨"JJK".toList, "short".toList, "en".toList⟩,
              ⟨"Jujutsu Kaisen".toList, "main".toList, "en".toList⟩]⟩,
    ⟨some 2, [⟨"JJK Stuff".toList, "main".toList, "en".toList⟩]⟩ ]

/-- The lookup tables parsed from `egCatalog`. -/
def egLookup : Lookup := parse_anime_titles egCatalog

/-- A catalog whose single entry carries two distinct non-empty titles
that both contain the letter `x`. -/
def dupCatalog : List Entry :=
  [ ⟨some 1, [⟨"Ax".toList, "main".toList, "en".toList⟩,
              ⟨"Bx".toList, "syn".toList, "en".toList⟩]⟩ ]

/-- The lookup tables parsed from `dupCatalog`. -/
def dupLookup : Lookup := parse_anime_titles dupCatalog

/-- The single catalog entry carrying two titles tagged `main`. -/
def twoMainEntry : Entry :=
  ⟨some 1, [⟨"A".toList, "main".toList, "en".toList⟩,
            ⟨"B".toList, "main".toList, "en".toList⟩]⟩

/-- A three-entry catalog for the batch-tally scenario. -/
def egCatalog3 : List Entry :=
  [ ⟨some 1, [⟨"One".toList, "main".toList, "en".toList⟩]⟩,
    ⟨some 2, [⟨"Two".toList, "main".toList, "en".toList⟩]⟩,
    ⟨some 3, [⟨"Three".toList, "main".toList, "en".toList⟩]⟩ ]

/-- The lookup tables parsed from `egCatalog3`. -/
def egLookup3 : Lookup := parse_anime_titles egCatalog3

/-- A network where the second post answers HTTP 500 and every other
post answers HTTP 200. -/
def egNet500 : Nat → PostOutcome :=
  fun i => if i = 2 then PostOutcome.status 500 else PostOutcome.status 200

/-- Three distinct facts for the send-loop scenario. -/
def egFactA : FactPayload := ⟨"a".toList, none, none, "web".toList, 1, [], []⟩

/-- Second fact of the send-loop scenario. -/
def egFactB : FactPayload := ⟨"b".toList, none, none, "web".toList, 1, [], []⟩

/-- Third fact of the send-loop scenario. -/
def egFactC : FactPayload := ⟨"c".toList, none, none, "web".toList, 1, [], []⟩

/-- A webhook where posting the fact whose text is `b` raises and every
other post answers HTTP 200. -/
def egPost (f : FactPayload) : Except Unit Nat :=
  if f.text = "b".toList then Except.error () else Except.ok 200

/-! ### Claim C1: exact abbreviation match -/

/-- Claim C1: when the lowercased query is a key of the abbreviation map,
`search_anime` returns exactly the single record tuple for the mapped id
(the mapped id resolving in `anime_data` is the data-model invariant,
established for parser output by the referential-integrity theorem), and
the whole search depends only on the lowercased query, so any casing of
the query yields the same result. -/
theorem search_exact_abbrev_single_result (l : Lookup) (q : PyStr) (aid : Nat)
    (a : AnimeData)
    (h1 : dlookup (pyLower q) l.abbreviations = some aid)
    (h2 : dlookup aid l.anime_data = some a) :
    search_anime l q = some [(aid, a.main_title, a.anidb_url)] ∧
    ∀ q2 : PyStr, pyLower q2 = pyLower q →
      search_anime l q2 = search_anime l q := by
  constructor
  · simp [search_anime, h1, h2]
  · intro q2 hq
    simp only [search_anime]
    rw [hq]

/-- Witness for C1 at `egLookup` with the mixed-case query `JJK`. -/
theorem search_exact_abbrev_single_result_witness :
    search_anime egLookup "JJK".toList
      = some [(1, some "Jujutsu Kaisen".toList, animeUrl 1)] :=
  (search_exact_abbrev_single_result egLookup ("JJK".toList) 1
    ⟨1, some "Jujutsu Kaisen".toList,
     [⟨"JJK".toList, "short".toList, "en".toList⟩,
      ⟨"Jujutsu Kaisen".toList, "main".toList, "en".toList⟩], animeUrl 1⟩
    (by decide) (by decide)).1

/-! ### Claim C5: result cap -/

/-- Claim C5: whenever `search_anime` returns a result list, its length
is at most ten. -/
theorem search_length_le_ten (l : Lookup) (q : PyStr) (r : List Result)
    (h : search_anime l q = some r) : r.length ≤ 10 := by
  simp only [search_anime] at h
  split at h
  · rcases Option.map_eq_some'.mp h with ⟨a, -, rfl⟩
    simp
  · split at h
    · rcases Option.map_eq_some'.mp h with ⟨a, -, rfl⟩
      simp
    · split at h
      · cases h
      · split at h
        · cases h
        · cases h
          simp only [List.length_take]
          exact min_le_left _ _

/-- Witness for C5 at `egLookup` with query `JJK`. -/
theorem search_length_le_ten_witness :
    ([(1, some "Jujutsu Kaisen".toList, animeUrl 1)] : List Result).length ≤ 10 :=
  search_length_le_ten egLookup ("JJK".toList) _ (by decide)

/-! ### Claim C2: tier short-circuiting -/

/-- The tier-4 loop only ever appends to the accumulated result list. -/
theorem substr_title_matches_extends (data : List (Nat × AnimeData)) (ql : PyStr) :
    ∀ (ts : List (PyStr × Nat)) (acc r : List Result),
      substr_title_matches data ql ts acc = some r → ∃ ext, r = acc ++ ext := by
  intro ts
  induction ts with
  | nil =>
    intro acc r h
    cases h
    exact ⟨[], by simp⟩
  | cons p rest ih =>
    intro acc r h
    obtain ⟨title, aid⟩ := p
    simp only [substr_title_matches] at h
    split at h
    · split at h
      next => cases h
      next a ha =>
        split at h
        · exact ih acc r h
        · rcases ih _ r h with ⟨ext, rfl⟩
          exact ⟨(aid, a.main_title, a.anidb_url) :: ext, by simp⟩
    · exact ih acc r h

/-- Claim C2 (amended): only tiers 1 and 2 short-circuit; when neither
exact lookup fires, the tier-3 matches form a prefix of the result
(tier 4 only appends after them, before truncation to ten), but tier 4
can still contribute results even when tier 3 is non-empty. -/
theorem search_tiers34_concatenated (l : Lookup) (q : PyStr) (r3 r4 : List Result)
    (h1 : dlookup (pyLower q) l.abbreviations = none)
    (h2 : dlookup (pyLower q) l.titles = none)
    (h3 : substr_abbrev_matches l.anime_data (pyLower q) l.abbreviations [] = some r3)
    (h4 : substr_title_matches l.anime_data (pyLower q) l.titles r3 = some r4) :
    search_anime l q = some (r4.take 10) ∧ ∃ ext, r4 = r3 ++ ext := by
  refine ⟨?_, substr_title_matches_extends _ _ _ _ _ h4⟩
  simp [search_anime, h1, h2, h3, h4]

/-- Counterexample to Claim C2 as stated: on `egLookup` the query
`jjk st` has a non-empty tier 3 (the abbreviation `jjk` matches), yet the
returned list also contains the tier-4 hit for entry 2, so tier 3 does
not short-circuit. -/
theorem tier3_nonempty_tier4_still_contributes :
    substr_abbrev_matches egLookup.anime_data ("jjk st".toList)
        egLookup.abbreviations []
      = some [(1, some "Jujutsu Kaisen".toList, animeUrl 1)] ∧
    search_anime egLookup "jjk st".toList
      = some [(1, some "Jujutsu Kaisen".toList, animeUrl 1),
              (2, some "JJK Stuff".toList, animeUrl 2)] ∧
    search_anime egLookup "jjk st".toList
      ≠ some [(1, some "Jujutsu Kaisen".toList, animeUrl 1)] := by
  refine ⟨by decide, by decide, by decide⟩

/-- Witness for the amended C2 at `egLookup` with query `jjk st`. -/
theorem search_tiers34_concatenated_witness :
    search_anime egLookup "jjk st".toList
      = some (([(1, some "Jujutsu Kaisen".toList, animeUrl 1),
                (2, some "JJK Stuff".toList, animeUrl 2)] : List Result).take 10) ∧
    ∃ ext, ([(1, some "Jujutsu Kaisen".toList, animeUrl 1),
             (2, some "JJK Stuff".toList, animeUrl 2)] : List Result)
      = [(1, some "Jujutsu Kaisen".toList, animeUrl 1)] ++ ext :=
  search_tiers34_concatenated egLookup ("jjk st".toList) _ _
    (by decide) (by decide) (by decide) (by decide)

/-! ### Claim C4: main-title selection -/

/-- Inserting a key always makes it retrievable with the inserted value. -/
theorem dlookup_dinsert_self {α β : Type} [DecidableEq α] (k : α) (v : β) :
    ∀ l : List (α × β), dlookup k (dinsert k v l) = some v := by
  intro l
  induction l with
  | nil => simp [dinsert, dlookup]
  | cons p rest ih =>
    obtain ⟨k', v'⟩ := p
    by_cases hk : k' = k
    · simp [dinsert, hk, dlookup]
    · simp [dinsert, hk, dlookup, ih]

/-- The `main_title` component of the title-loop fold is the fold of
`mainStep` alone. -/
theorem foldl_processTitle_main (aid : Nat) :
    ∀ (ts : List Title) (st : TState),
      (ts.foldl (processTitle aid) st).main_title = ts.foldl mainStep st.main_title := by
  intro ts
  induction ts with
  | nil => intro st; rfl
  | cons t rest ih =>
    intro st
    rw [List.foldl_cons, List.foldl_cons, ih]
    congr 1
    by_cases he : t.text = []
    · simp [processTitle, mainStep, he]
    · simp [processTitle, mainStep, he]

/-- Folding `mainStep` keeps the last `main`-tagged title, else the
incoming value, else the first non-empty title. -/
theorem foldl_mainStep_eq (ts : List Title) :
    ∀ m : Option PyStr,
      ts.foldl mainStep m =
        (lastMainText ts).orElse fun _ => m.orElse fun _ => firstNonEmptyText ts := by
  induction ts with
  | nil =>
    intro m
    cases m <;> simp [lastMainText, firstNonEmptyText]
  | cons t rest ih =>
    intro m
    rw [List.foldl_cons, ih (mainStep m t)]
    cases hl : lastMainText rest with
    | some x => simp [lastMainText, hl]
    | none =>
      by_cases he : t.text = []
      · simp [lastMainText, firstNonEmptyText, mainStep, hl, he]
      · by_cases hm : t.type = (['m', 'a', 'i', 'n'] : PyStr)
        · simp [lastMainText, firstNonEmptyText, mainStep, hl, he, hm]
        · cases m <;> simp [lastMainText, firstNonEmptyText, mainStep, hl, he, hm]

/-- `lastMainElseFirst` as an `orElse` chain. -/
theorem lastMainElseFirst_eq (ts : List Title) :
    lastMainElseFirst ts = (lastMainText ts).orElse fun _ => firstNonEmptyText ts := by
  cases h : lastMainText ts <;> simp [lastMainElseFirst, h]

/-- Claim C4 (amended): for the record a parsed entry stores, the main
title is the text of the *last* non-empty title tagged `main` (every
`main`-tagged title overwrites the variable), and only when no title is
tagged `main` does the first non-empty title stand. -/
theorem parse_main_title_last_main_else_first (cat : List Entry) (e : Entry)
    (aid : Nat) (h : e.aid = some aid) :
    ∃ a, dlookup aid (parse_anime_titles (cat ++ [e])).anime_data = some a ∧
         a.main_title = lastMainElseFirst e.titles := by
  have hp : parse_anime_titles (cat ++ [e])
      = processEntry (parse_anime_titles cat) e := by
    simp [parse_anime_titles, List.foldl_append]
  rw [hp]
  simp only [processEntry, h]
  refine ⟨_, dlookup_dinsert_self _ _ _, ?_⟩
  rw [foldl_processTitle_main, foldl_mainStep_eq, lastMainElseFirst_eq]
  simp

/-- Counterexample to Claim C4 as stated: on an entry with two
`main`-tagged titles `A` then `B`, the parser stores `B` while the
claimed first-main policy selects `A`. -/
theorem last_main_tag_overrides_first :
    (dlookup 1 (parse_anime_titles [twoMainEntry]).anime_data).map AnimeData.main_title
      = some (some "B".toList) ∧
    firstMainElseFirst twoMainEntry.titles = some "A".toList ∧
    (some "B".toList : Option PyStr) ≠ some "A".toList := by
  refine ⟨by decide, by decide, by decide⟩

/-- Witness for the amended C4 at the two-main entry. -/
theorem parse_main_title_last_main_else_first_witness :
    ∃ a, dlookup 1 (parse_anime_titles ([] ++ [twoMainEntry])).anime_data = some a ∧
         a.main_title = lastMainElseFirst twoMainEntry.titles :=
  parse_main_title_last_main_else_first [] twoMainEntry 1 (by decide)

/-! ### Claim C3: tier-4 deduplication -/

/-- A successful dictionary access yields a pair of the list. -/
theorem dlookup_mem {α β : Type} [DecidableEq α] {k : α} {v : β} :
    ∀ {l : List (α × β)}, dlookup k l = some v → (k, v) ∈ l := by
  intro l
  induction l with
  | nil => intro h; cases h
  | cons p rest ih =>
    intro h
    obtain ⟨k', v'⟩ := p
    simp only [dlookup] at h
    split at h
    next hk =>
      cases h
      subst hk
      exact List.mem_cons_self _ _
    next => exact List.mem_cons_of_mem _ (ih h)

/-- Every tuple the tier-3 loop adds carries the main title and URL of a
record of `anime_data`. -/
theorem substr_abbrev_matches_good (data : List (Nat × AnimeData)) (ql : PyStr) :
    ∀ (abbrs : List (PyStr × Nat)) (acc r : List Result),
      substr_abbrev_matches data ql abbrs acc = some r →
      (∀ x ∈ acc, UsesMainTitle data x) → ∀ x ∈ r, UsesMainTitle data x := by
  intro abbrs
  induction abbrs with
  | nil =>
    intro acc r h hacc
    cases h
    exact hacc
  | cons p rest ih =>
    intro acc r h hacc
    obtain ⟨abbr, aid⟩ := p
    simp only [substr_abbrev_matches] at h
    split at h
    · split at h
      next => cases h
      next a ha =>
        refine ih _ r h ?_
        intro x hx
        rcases List.mem_append.mp hx with hx | hx
        · exact hacc x hx
        · rcases List.mem_singleton.mp hx with rfl
          exact ⟨a, dlookup_mem ha, rfl, rfl⟩
    · exact ih acc r h hacc

/-- Every tuple the tier-4 loop adds carries the main title and URL of a
record of `anime_data`. -/
theorem substr_title_matches_good (data : List (Nat × AnimeData)) (ql : PyStr) :
    ∀ (ts : List (PyStr × Nat)) (acc r : List Result),
      substr_title_matches data ql ts acc = some r →
      (∀ x ∈ acc, UsesMainTitle data x) → ∀ x ∈ r, UsesMainTitle data x := by
  intro ts
  induction ts with
  | nil =>
    intro acc r h hacc
    cases h
    exact hacc
  | cons p rest ih =>
    intro acc r h hacc
    obtain ⟨title, aid⟩ := p
    simp only [substr_title_matches] at h
    split at h
    · split at h
      next => cases h
      next a ha =>
        split at h
        · exact ih acc r h hacc
        · refine ih _ r h ?_
          intro x hx
          rcases List.mem_append.mp hx with hx | hx
          · exact hacc x hx
          · rcases List.mem_singleton.mp hx with rfl
            exact ⟨a, dlookup_mem ha, rfl, rfl⟩
    · exact ih acc r h hacc

/-- Claim C3 (amended): every tuple `search_anime` returns is
`(id, mainTitle, anidbUrl)` of a record of `anime_data` — the matched
title key is used only inside the tier-4 skip test, which compares
`(id, matchedKey, url)` against the collected results, so the appended
tuple can coincide with one already present and identical tuples can
repeat. -/
theorem search_results_carry_main_title (l : Lookup) (q : PyStr)
    (r : List Result) (h : search_anime l q = some r) :
    ∀ x ∈ r, UsesMainTitle l.anime_data x := by
  simp only [search_anime] at h
  split at h
  next aid ha =>
    rcases Option.map_eq_some'.mp h with ⟨a, ha2, rfl⟩
    intro x hx
    rcases List.mem_singleton.mp hx with rfl
    exact ⟨a, dlookup_mem ha2, rfl, rfl⟩
  next =>
    split at h
    next aid ha =>
      rcases Option.map_eq_some'.mp h with ⟨a, ha2, rfl⟩
      intro x hx
      rcases List.mem_singleton.mp hx with rfl
      exact ⟨a, dlookup_mem ha2, rfl, rfl⟩
    next =>
      split at h
      next => cases h
      next r3 h3 =>
        split at h
        next => cases h
        next r4 h4 =>
          cases h
          intro x hx
          have hx4 : x ∈ r4 := (List.take_sublist 10 r4).subset hx
          have good3 : ∀ y ∈ r3, UsesMainTitle l.anime_data y :=
            substr_abbrev_matches_good _ _ _ _ _ h3 (by intro y hy; cases hy)
          exact substr_title_matches_good _ _ _ _ _ h4 good3 x hx4

/-- Counterexample to Claim C3 as stated: on `dupLookup` the query `x`
matches the two title keys `ax` and `bx` of the same entry, and the
appended tuple both times is `(1, Ax, url)` — the second append equals a
tuple already among the results, so the result list is not duplicate-free. -/
theorem duplicate_triple_appended :
    search_anime dupLookup "x".toList
      = some [(1, some "Ax".toList, animeUrl 1),
              (1, some "Ax".toList, animeUrl 1)] ∧
    ¬ ([(1, some "Ax".toList, animeUrl 1),
        (1, some "Ax".toList, animeUrl 1)] : List Result).Nodup := by
  refine ⟨by decide, by decide⟩

/-- Witness for the amended C3 at `dupLookup` with query `x`. -/
theorem search_results_carry_main_title_witness :
    UsesMainTitle dupLookup.anime_data (1, some "Ax".toList, animeUrl 1) :=
  search_results_carry_main_title dupLookup ("x".toList)
    [(1, some "Ax".toList, animeUrl 1), (1, some "Ax".toList, animeUrl 1)]
    (by decide) (1, some "Ax".toList, animeUrl 1) (by decide)

/-! ### Claim C8: referential integrity of the parsed tables -/

/-- A pair of an updated dictionary is the inserted pair or an original
pair. -/
theorem mem_dinsert {α β : Type} [DecidableEq α] {x : α × β} {k : α} {v : β} :
    ∀ {l : List (α × β)}, x ∈ dinsert k v l → x = (k, v) ∨ x ∈ l := by
  intro l
  induction l with
  | nil =>
    intro h
    rcases List.mem_singleton.mp h with rfl
    exact Or.inl rfl
  | cons p rest ih =>
    intro h
    obtain ⟨k', v'⟩ := p
    simp only [dinsert] at h
    split at h
    · rcases List.mem_cons.mp h with rfl | h
      · exact Or.inl rfl
      · exact Or.inr (List.mem_cons_of_mem _ h)
    · rcases List.mem_cons.mp h with rfl | h
      · exact Or.inr (List.mem_cons_self _ _)
      · rcases ih h with h | h
        · exact Or.inl h
        · exact Or.inr (List.mem_cons_of_mem _ h)

/-- The inserted key is a key of the updated dictionary. -/
theorem mem_keys_dinsert_self {α β : Type} [DecidableEq α] (k : α) (v : β) :
    ∀ l : List (α × β), k ∈ (dinsert k v l).map Prod.fst := by
  intro l
  induction l with
  | nil => simp [dinsert]
  | cons p rest ih =>
    obtain ⟨k', v'⟩ := p
    by_cases hk : k' = k
    · simp [dinsert, hk]
    · simp only [dinsert, if_neg hk, List.map_cons, List.mem_cons]
      exact Or.inr ih

/-- Updating a dictionary keeps every existing key. -/
theorem mem_keys_dinsert_of_mem {α β : Type} [DecidableEq α] {k' : α}
    (k : α) (v : β) :
    ∀ {l : List (α × β)}, k' ∈ l.map Prod.fst →
      k' ∈ (dinsert k v l).map Prod.fst := by
  intro l
  induction l with
  | nil => intro h; cases h
  | cons p rest ih =>
    intro h
    obtain ⟨k'', v''⟩ := p
    by_cases hk : k'' = k
    · subst hk
      have hd : dinsert k'' v ((k'', v'') :: rest) = (k'', v) :: rest := by
        simp [dinsert]
      rw [hd]
      simpa using h
    · rcases List.mem_cons.mp h with h | h
      · simp [dinsert, if_neg hk, h]
      · simp only [dinsert, if_neg hk, List.map_cons, List.mem_cons]
        exact Or.inr (ih h)

/-- The title loop never touches `anime_data`. -/
theorem titleFold_anime_data (aid : Nat) :
    ∀ (ts : List Title) (st : TState),
      (ts.foldl (processTitle aid) st).lk.anime_data = st.lk.anime_data := by
  intro ts
  induction ts with
  | nil => intro st; rfl
  | cons t rest ih =>
    intro st
    rw [List.foldl_cons, ih]
    by_cases he : t.text = []
    · simp [processTitle, he]
    · simp [processTitle, he]

/-- Every pair the title loop adds to the abbreviation or title map
carries the id of the entry being processed. -/
theorem titleFold_maps_mem (aid : Nat) :
    ∀ (ts : List Title) (st : TState) (p : PyStr × Nat),
      ((p ∈ (ts.foldl (processTitle aid) st).lk.abbreviations →
          p ∈ st.lk.abbreviations ∨ p.2 = aid) ∧
       (p ∈ (ts.foldl (processTitle aid) st).lk.titles →
          p ∈ st.lk.titles ∨ p.2 = aid)) := by
  intro ts
  induction ts with
  | nil =>
    intro st p
    exact ⟨Or.inl, Or.inl⟩
  | cons t rest ih =>
    intro st p
    rw [List.foldl_cons]
    by_cases he : t.text = []
    · rw [show processTitle aid st t = st from by simp [processTitle, he]]
      exact ih st p
    constructor
    · intro hp
      rcases (ih _ p).1 hp with hp | hp
      · simp only [processTitle, if_neg he] at hp
        split at hp
        · rcases mem_dinsert hp with rfl | hp
          · exact Or.inr rfl
          · exact Or.inl hp
        · exact Or.inl hp
      · exact Or.inr hp
    · intro hp
      rcases (ih _ p).2 hp with hp | hp
      · simp only [processTitle, if_neg he] at hp
        rcases mem_dinsert hp with rfl | hp
        · exact Or.inr rfl
        · exact Or.inl hp
      · exact Or.inr hp

/-- Processing one catalog entry preserves referential integrity. -/
theorem processEntry_integrity (lk : Lookup) (e : Entry)
    (h : Integrity lk) : Integrity (processEntry lk e) := by
  rcases he : e.aid with - | aid
  · simpa [processEntry, he] using h
  intro p hp
  simp only [processEntry, he] at hp ⊢
  have hdata := titleFold_anime_data aid e.titles ⟨[], none, lk⟩
  have hmem :
      p ∈ (e.titles.foldl (processTitle aid) ⟨[], none, lk⟩).lk.abbreviations ∨
      p ∈ (e.titles.foldl (processTitle aid) ⟨[], none, lk⟩).lk.titles →
      p ∈ lk.abbreviations ∨ p ∈ lk.titles ∨ p.2 = aid := by
    intro hp
    rcases hp with hp | hp
    · rcases (titleFold_maps_mem aid e.titles ⟨[], none, lk⟩ p).1 hp with hp | hp
      · exact Or.inl hp
      · exact Or.inr (Or.inr hp)
    · rcases (titleFold_maps_mem aid e.titles ⟨[], none, lk⟩ p).2 hp with hp | hp
      · exact Or.inr (Or.inl hp)
      · exact Or.inr (Or.inr hp)
  rcases hmem hp with hp' | hp' | hp'
  · rw [hdata]
    exact mem_keys_dinsert_of_mem _ _ (h p (Or.inl hp'))
  · rw [hdata]
    exact mem_keys_dinsert_of_mem _ _ (h p (Or.inr hp'))
  · rw [hp']
    exact mem_keys_dinsert_self _ _ _

/-- The entry fold preserves referential integrity. -/
theorem foldl_processEntry_integrity :
    ∀ (catalog : List Entry) (lk : Lookup),
      Integrity lk → Integrity (catalog.foldl processEntry lk) := by
  intro catalog
  induction catalog with
  | nil => intro lk h; exact h
  | cons e rest ih =>
    intro lk h
    exact ih _ (processEntry_integrity lk e h)

/-- Claim C8: every id stored as a value of the abbreviation map or the
title map produced by `parse_anime_titles` is a key of `anime_data`. -/
theorem parse_referential_integrity (catalog : List Entry) :
    ∀ p : PyStr × Nat,
      p ∈ (parse_anime_titles catalog).abbreviations ∨
      p ∈ (parse_anime_titles catalog).titles →
      p.2 ∈ (parse_anime_titles catalog).anime_data.map Prod.fst :=
  foldl_processEntry_integrity catalog ⟨[], [], []⟩ (by intro p hp; rcases hp with hp | hp <;> cases hp)

/-- Witness for C8 at `egCatalog` with the abbreviation pair `(jjk, 1)`. -/
theorem parse_referential_integrity_witness :
    1 ∈ (parse_anime_titles egCatalog).anime_data.map Prod.fst :=
  parse_referential_integrity egCatalog ("jjk".toList, 1) (Or.inl (by decide))

/-! ### Claim C6: batch failure isolation -/

/-- The injection loop visits every record exactly once, each visit
incrementing exactly one of the two counters. -/
theorem injectLoop_total (net : Nat → PostOutcome) :
    ∀ (data : List (Nat × AnimeData)) (i s e : Nat),
      (injectLoop net data i s e).1 + (injectLoop net data i s e).2
        = s + e + data.length := by
  intro data
  induction data with
  | nil => intro i s e; simp [injectLoop]
  | cons d rest ih =>
    intro i s e
    simp only [injectLoop, List.length_cons]
    split
    · rw [ih]
      omega
    · split
      · rw [ih]
        omega
      · rw [ih]
        omega

/-- Claim C6 (amended): the anime-injection batch has partial-failure
semantics — every record receives exactly one outcome and the final
tally of successes plus errors equals the batch size — and in the
three-record scenario with an HTTP 500 on the second post the tally is
two successes and one failure; the scrape path does not share this
property (see the counterexample and Claim C10). -/
theorem inject_tally_counts_every_item :
    (∀ (lookup : Lookup) (net : Nat → PostOutcome),
        (inject_to_knowledge_base lookup net).1
          + (inject_to_knowledge_base lookup net).2
          = lookup.anime_data.length) ∧
    inject_to_knowledge_base egLookup3 egNet500 = (2, 1) := by
  constructor
  · intro lookup net
    simpa using injectLoop_total net lookup.anime_data 1 0 0
  · decide

/-- Counterexample to Claim C6 as stated: the webhook send loop of the
scrape path wraps all sends in one handler, so when posting the second
of three facts raises, only the first fact gets an outcome and the third
is never attempted — three submissions do not produce three outcomes. -/
theorem send_loop_aborts_after_failure :
    sendLoop egPost [egFactA, egFactB, egFactC] = [(egFactA, 200)] ∧
    (sendLoop egPost [egFactA, egFactB, egFactC]).length ≠ 3 := by
  refine ⟨by decide, by decide⟩

/-! ### Claim C7: domain exclusion -/

/-- Claim C7: the exclusion check lowercases the host and vetoes exactly
when the lowered host equals an excluded entry or ends with a dot
followed by one; hence the verdict is casing-independent, and on the
exclusion list `example.com` the hosts `sub.example.com` and
`EXAMPLE.com` are vetoed while `notexample.com` is not, through the
manual-entry URL path as well. -/
theorem domain_exclusion_characterization (excluded : List PyStr)
    (host1 host2 : PyStr) (hc : pyLower host1 = pyLower host2) :
    hostExcluded excluded host1 = hostExcluded excluded host2 ∧
    (hostExcluded excluded host1 = true ↔
      ∃ ex ∈ excluded, pyLower host1 = ex ∨
        List.isSuffixOf ('.' :: ex) (pyLower host1) = true) ∧
    hostExcluded ["example.com".toList] "sub.example.com".toList = true ∧
    hostExcluded ["example.com".toList] "EXAMPLE.com".toList = true ∧
    hostExcluded ["example.com".toList] "notexample.com".toList = false ∧
    manualUrlExcluded ["example.com".toList] "https://sub.example.com/page".toList = true ∧
    manualUrlExcluded ["example.com".toList] "notexample.com".toList = false := by
  refine ⟨by simp [hostExcluded, hc], ?_, by decide, by decide, by decide,
    by decide, by decide⟩
  simp [hostExcluded, domainBlocked, List.any_eq_true]

/-- Witness for C7: the verdict on `Sub.Example.COM` coincides with the
verdict on `sub.example.com`. -/
theorem domain_exclusion_characterization_witness :
    hostExcluded ["example.com".toList] "Sub.Example.COM".toList
      = hostExcluded ["example.com".toList] "sub.example.com".toList :=
  (domain_exclusion_characterization ["example.com".toList]
    ("Sub.Example.COM".toList) ("sub.example.com".toList) (by decide)).1

/-! ### Claim C9: confidence bounds on the manual path -/

/-- Claim C9 is violated by the code: when the user answers `5` at the
confidence prompt, `float` parses it, no branch clamps or rejects it, and
the submitted payload carries confidence 5, outside the interval the
script's own schema comment prescribes. -/
theorem manual_confidence_escapes_unit_interval :
    (manualFactPayload ("PostgreSQL supports JSON querying".toList) none none
        ("manual".toList) (some 5) [] []).confidence = 5 ∧
    ¬ (manualFactPayload ("PostgreSQL supports JSON querying".toList) none none
        ("manual".toList) (some 5) [] []).confidence ≤ 1 := by
  constructor
  · rfl
  · norm_num [manualFactPayload, manual_confidence]

/-! ### Claim C10: the scrape path never posts -/

/-- The per-URL loop can never bind `facts`: started unbound it stays
unbound, every iteration raising and catching before any assignment. -/
theorem scrapeLoop_none (excluded : List PyStr) (netloc : PyStr → PyStr)
    (fetch : PyStr → Except Unit Page) :
    ∀ urls : List PyStr,
      scrapeLoop excluded netloc fetch none urls = none := by
  intro urls
  induction urls with
  | nil => rfl
  | cons u rest ih =>
    simp only [scrapeLoop]
    split
    · exact ih
    · split
      · exact ih
      · exact ih

/-- Claim C10: for every list of URLs, exclusion set and network
behaviour, `scrape_and_send_to_n8n` posts nothing and ends with an
uncaught `NameError` — the `if not facts:` test reads a name no branch
ever assigned. -/
theorem scrape_raises_name_error_before_posting (urls excluded : List PyStr)
    (netloc : PyStr → PyStr) (fetch : PyStr → Except Unit Page)
    (post : FactPayload → Except Unit Nat) :
    scrape_and_send_to_n8n urls excluded netloc fetch post
      = ⟨[], some PyError.nameError⟩ := by
  simp [scrape_and_send_to_n8n, scrapeLoop_none]

end HannaIRC
